import Mathlib

/-!
Shallow embedding of the `jsontypes.ExactType` custom attribute type
(`vendor/github.com/hashicorp/terraform-plugin-framework-jsontypes/jsontypes/exact_type.go`)
and the collaborating framework pieces it reads, together with theorems
checking the claims of the specification about it.
-/

namespace Jsontypes

/-- A path locating an attribute within the configuration tree.
Modelled from the spec: the path is opaque here, "used only for attributing
diagnostics". -/
structure AttrPath where
  steps : List String
  deriving DecidableEq

/-- Severity of a diagnostic record. -/
inductive Severity where
  | error
  | warning
  deriving DecidableEq

/-- One diagnostic record: severity, attributed path, category summary and
free-text detail message. Modelled from the spec: the diagnostics container
of the host framework accumulates "path-scoped error entries with a category
label and free-text message". -/
structure Diagnostic where
  severity : Severity
  path : AttrPath
  summary : String
  detail : String
  deriving DecidableEq

/-- A diagnostics collection, `diag.Diagnostics`, is an ordered list of
diagnostic records. -/
abbrev Diagnostics := List Diagnostic

/-- Embeds `diag.Diagnostics.AddAttributeError`: append one error-severity
diagnostic with the given path, summary and detail. -/
def Diagnostics.addAttributeError (diags : Diagnostics) (p : AttrPath)
    (summary detail : String) : Diagnostics :=
  diags ++ [⟨Severity.error, p, summary, detail⟩]

/-- Embeds `diag.Diagnostics.HasError`: true when some entry has error
severity. -/
def Diagnostics.hasError (diags : Diagnostics) : Bool :=
  diags.any (fun d =>
    match d.severity with
    | Severity.error => true
    | Severity.warning => false)

/-- Wire-level type tags (`tftypes.Type`): the string primitive and a few
representative non-string types (number, bool, list). -/
inductive TFType where
  | string
  | number
  | bool
  | list (elem : TFType)
  deriving DecidableEq

/-- Embeds `in.Type().Is(tftypes.String)`: a wire type is the string
primitive exactly when it is the `string` tag. -/
def TFType.isString : TFType → Bool
  | TFType.string => true
  | _ => false

/-- Rendering of a wire type name as `tftypes.Type.String()` produces it. -/
def TFType.render : TFType → String
  | TFType.string => "tftypes.String"
  | TFType.number => "tftypes.Number"
  | TFType.bool => "tftypes.Bool"
  | TFType.list e => "tftypes.List[" ++ TFType.render e ++ "]"

/-- Payload of a wire value: unknown (not yet determined), explicit null, a
concrete string, or a concrete non-string payload (rendered opaquely). -/
inductive TFContent where
  | unknown
  | null
  | str (s : String)
  | nonString (raw : String)
  deriving DecidableEq

/-- A wire value (`tftypes.Value`): a possibly-absent type tag plus a
payload. Modelled from the spec: "an opaque external representation carrying
a type tag, a known/unknown flag, and a null flag, plus raw data when known
and non-null". -/
structure TFValue where
  typ : Option TFType
  content : TFContent
  deriving DecidableEq

/-- Embeds `tftypes.Value.IsKnown`. -/
def TFValue.isKnown (v : TFValue) : Bool :=
  match v.content with
  | TFContent.unknown => false
  | _ => true

/-- Embeds `tftypes.Value.IsNull`. -/
def TFValue.isNull (v : TFValue) : Bool :=
  match v.content with
  | TFContent.null => true
  | _ => false

/-- Rendering of a wire value as `tftypes.Value.String()` produces it:
the type name followed by the payload in angle brackets. -/
def TFValue.render (v : TFValue) : String :=
  match v.typ with
  | none => "invalid typeless tftypes.Value<>"
  | some ty =>
    match v.content with
    | TFContent.unknown => TFType.render ty ++ "<unknown>"
    | TFContent.null => TFType.render ty ++ "<null>"
    | TFContent.str s => TFType.render ty ++ "<\"" ++ s ++ "\">"
    | TFContent.nonString raw => TFType.render ty ++ "<" ++ raw ++ ">"

/-- Embeds `in.As(&valueString)`: structural extraction of the concrete
string payload, failing when the payload is not a string. -/
def TFValue.asString (v : TFValue) : Except String String :=
  match v.content with
  | TFContent.str s => Except.ok s
  | _ => Except.error "unexpected error: value collection or unknown"

/-- JSON insignificant whitespace (RFC 7159 section 2). -/
def isJSONWS (c : Char) : Bool :=
  c = ' ' || c = '\t' || c = '\n' || c = '\r'

/-- Skip leading JSON whitespace. -/
def skipWS : List Char → List Char
  | [] => []
  | c :: cs => if isJSONWS c then skipWS cs else c :: cs

/-- Hexadecimal digit, for `\u` escapes in JSON strings. -/
def isHexDigit (c : Char) : Bool :=
  c.isDigit || ('a' ≤ c && c ≤ 'f') || ('A' ≤ c && c ≤ 'F')

/-- Scan the remainder of a JSON string literal, the opening quote already
consumed: unescaped characters are at least U+0020 and not quote or
backslash; escapes are the RFC 7159 single-character escapes or `\u` with
four hex digits. Returns the input after the closing quote. -/
def strRest : List Char → Option (List Char)
  | [] => none
  | c :: cs =>
    if c = '"' then some cs
    else if c = '\\' then
      match cs with
      | [] => none
      | e :: cs2 =>
        if e = '"' || e = '\\' || e = '/' || e = 'b' || e = 'f' || e = 'n'
            || e = 'r' || e = 't' then
          strRest cs2
        else if e = 'u' then
          match cs2 with
          | h1 :: h2 :: h3 :: h4 :: cs3 =>
            if isHexDigit h1 && isHexDigit h2 && isHexDigit h3 && isHexDigit h4 then
              strRest cs3
            else none
          | _ => none
        else none
    else if c.toNat < 32 then none
    else strRest cs

/-- Skip a maximal run of decimal digits. -/
def skipDigits : List Char → List Char
  | [] => []
  | c :: cs => if c.isDigit then skipDigits cs else c :: cs

/-- Scan an optional JSON number exponent part: `e`/`E`, optional sign, one
or more digits. -/
def numExp (cs : List Char) : Option (List Char) :=
  match cs with
  | [] => some []
  | c :: r =>
    if c = 'e' || c = 'E' then
      let r2 :=
        match r with
        | s :: r3 => if s = '+' || s = '-' then r3 else r
        | [] => r
      match r2 with
      | d :: r4 => if d.isDigit then some (skipDigits r4) else none
      | [] => none
    else some (c :: r)

/-- Scan an optional JSON number fraction part (`.` then one or more
digits), then the optional exponent. -/
def numFrac (cs : List Char) : Option (List Char) :=
  match cs with
  | '.' :: r =>
    match r with
    | c :: r2 => if c.isDigit then numExp (skipDigits r2) else none
    | [] => none
  | _ => numExp cs

/-- Scan a JSON number (RFC 7159 section 6): optional minus, integer part
`0` or nonzero digit followed by digits, optional fraction and exponent. -/
def numRest (cs : List Char) : Option (List Char) :=
  let cs1 :=
    match cs with
    | c :: r => if c = '-' then r else c :: r
    | [] => []
  match cs1 with
  | [] => none
  | c :: r =>
    if c = '0' then numFrac r
    else if c.isDigit then numFrac (skipDigits r)
    else none

mutual

/-- Scan one JSON value (RFC 7159 section 3) starting at its first
character: object, array, string, number, or the literals `true`, `false`,
`null`. Fuel bounds recursion depth; the top-level entry point supplies
more fuel than any input can consume. Returns the input after the value. -/
def parseVal : Nat → List Char → Option (List Char)
  | 0, _ => none
  | fuel + 1, cs =>
    match cs with
    | [] => none
    | c :: r =>
      if c = '"' then strRest r
      else if c = '{' then
        match skipWS r with
        | c2 :: r2 => if c2 = '}' then some r2 else parseMembers fuel (c2 :: r2)
        | [] => none
      else if c = '[' then
        match skipWS r with
        | c2 :: r2 => if c2 = ']' then some r2 else parseElems fuel (c2 :: r2)
        | [] => none
      else if c = 't' then
        match r with
        | 'r' :: 'u' :: 'e' :: r2 => some r2
        | _ => none
      else if c = 'f' then
        match r with
        | 'a' :: 'l' :: 's' :: 'e' :: r2 => some r2
        | _ => none
      else if c = 'n' then
        match r with
        | 'u' :: 'l' :: 'l' :: r2 => some r2
        | _ => none
      else if c = '-' || c.isDigit then numRest (c :: r)
      else none

/-- Scan the members of a JSON object after `{` and leading whitespace,
the object known to be nonempty: `"name" : value` pairs separated by commas,
closed by `}`. -/
def parseMembers : Nat → List Char → Option (List Char)
  | 0, _ => none
  | fuel + 1, cs =>
    match cs with
    | [] => none
    | c :: r =>
      if c = '"' then
        match strRest r with
        | none => none
        | some r2 =>
          match skipWS r2 with
          | ':' :: r3 =>
            match parseVal fuel (skipWS r3) with
            | none => none
            | some r4 =>
              match skipWS r4 with
              | ',' :: r5 => parseMembers fuel (skipWS r5)
              | '}' :: r5 => some r5
              | _ => none
          | _ => none
      else none

/-- Scan the elements of a JSON array after `[` and leading whitespace,
the array known to be nonempty: values separated by commas, closed by
`]`. -/
def parseElems : Nat → List Char → Option (List Char)
  | 0, _ => none
  | fuel + 1, cs =>
    match parseVal fuel cs with
    | none => none
    | some r =>
      match skipWS r with
      | ',' :: r2 => parseElems fuel (skipWS r2)
      | ']' :: r2 => some r2
      | _ => none

end

/-- Embeds the standard-library JSON syntax validity check
(`encoding/json.Valid`, RFC 7159): optional whitespace, exactly one JSON
value, optional whitespace, nothing else. The fuel `2 * (length + 1)`
exceeds the recursion depth possible on the input, since at least one
character is consumed for every two nested calls. -/
def jsonValid (s : String) : Bool :=
  match parseVal (2 * (s.length + 1)) (skipWS s.toList) with
  | some rest => (skipWS rest).isEmpty
  | none => false

/-- The generic string-type descriptor `basetypes.StringType`: stateless,
carries no fields. -/
structure StringType where
  deriving DecidableEq

/-- Modelled from the spec: equality of wrapped generic string-type
descriptors (`basetypes.StringType.Equal`, not under `src/`) — "currently
always true, since the generic descriptor carries no parameters". -/
def StringType.Equal (_t _o : StringType) : Bool :=
  true

/-- A generic string value (`basetypes.StringValue`): a concrete string,
explicit null, or not-yet-known. -/
inductive StringValue where
  | known (value : String)
  | null
  | unknown
  deriving DecidableEq

/-- The `Exact` value holder: wraps a generic string value. -/
structure Exact where
  stringValue : StringValue
  deriving DecidableEq

/-- Framework attribute types that `Equal` may be asked to compare against:
the `ExactType` kind itself, the bare generic string type, or some unrelated
type identified by name. -/
inductive AttrType where
  | exactType (inner : StringType)
  | stringBase (inner : StringType)
  | otherType (name : String)
  deriving DecidableEq

/-- Framework attribute values as returned by the generic wire-to-value
conversion: a generic string value, or some other structural kind rendered
opaquely. -/
inductive AttrValue where
  | string (value : StringValue)
  | other (desc : String)
  deriving DecidableEq

/-- The `ExactType` type descriptor: wraps the generic string-type
descriptor. -/
structure ExactType where
  stringType : StringType
  deriving DecidableEq

/-- Embeds `ExactType.Equal`: true exactly when the other type is an
`ExactType` whose wrapped generic string-type descriptor equals the wrapped
descriptor of this one. -/
def ExactType.Equal (t : ExactType) (o : AttrType) : Bool :=
  match o with
  | AttrType.exactType otherInner => StringType.Equal t.stringType otherInner
  | _ => false

/-- The fixed preamble of the framework-internal validation error detail
message. -/
def reportHeader : String :=
  "An unexpected error was encountered trying to validate an attribute value. This is always an error in the provider. Please report the following to the provider developer:\n\n"

/-- The fixed preamble of the user-facing invalid-JSON detail message. -/
def invalidJSONHeader : String :=
  "A string value was provided that is not valid JSON string format (RFC 7159).\n\nGiven Value: "

/-- Embeds `fmt.Errorf("expected String value, received %T with value: %v",
in, in)`: the dynamic type of the wire value argument is always
`tftypes.Value`, and the value rendering follows. -/
def typeMismatchErr (v : TFValue) : String :=
  "expected String value, received tftypes.Value with value: " ++ TFValue.render v

/-- Embeds `ExactType.Validate`: no type tag succeeds trivially; a
non-string type tag yields the framework-internal diagnostic; unknown or
null succeeds; extraction failure yields the framework-internal diagnostic;
an invalid-JSON payload yields the user-facing diagnostic; otherwise no
diagnostics. -/
def ExactType.Validate (_t : ExactType) (v : TFValue) (p : AttrPath) : Diagnostics :=
  let diags : Diagnostics := []
  match v.typ with
  | none => diags
  | some ty =>
    if TFType.isString ty = false then
      Diagnostics.addAttributeError diags p "JSON Exact Type Validation Error"
        (reportHeader ++ typeMismatchErr v)
    else if TFValue.isKnown v = false || TFValue.isNull v then
      diags
    else
      match TFValue.asString v with
      | Except.error err =>
        Diagnostics.addAttributeError diags p "JSON Exact Type Validation Error"
          (reportHeader ++ err)
      | Except.ok valueString =>
        if jsonValid valueString = false then
          Diagnostics.addAttributeError diags p "Invalid JSON String Value"
            (invalidJSONHeader ++ valueString ++ "\n")
        else
          diags

/-- Embeds `ExactType.ValueFromString`: wrap the generic string value in an
`Exact` holder, with nil diagnostics. -/
def ExactType.ValueFromString (_t : ExactType) (v : StringValue) : Exact × Diagnostics :=
  (⟨v⟩, [])

/-- Modelled from the spec: the wire-to-value conversion of the generic
string type (`basetypes.StringType.ValueFromTerraform`, not under `src/`) —
decodes unknown to the unknown string value, null to the null string value
and a string payload to exactly that string, and fails on a wire value
whose payload is not a string, the decoded payload carried over with no
transformation. -/
def StringType.ValueFromTerraform (_t : StringType) (v : TFValue) : Except String AttrValue :=
  match v.content with
  | TFContent.unknown => Except.ok (AttrValue.string StringValue.unknown)
  | TFContent.null => Except.ok (AttrValue.string StringValue.null)
  | TFContent.str s => Except.ok (AttrValue.string (StringValue.known s))
  | TFContent.nonString raw =>
    Except.error ("cannot unmarshal " ++ raw ++ " into *string, expected string")

/-- Embeds `ExactType.ValueFromTerraform`: delegate to the generic string
conversion, propagate its error unchanged, fail on a non-string result,
then delegate to `ValueFromString` and fail if its diagnostics contain an
error. -/
def ExactType.ValueFromTerraform (t : ExactType) (v : TFValue) : Except String Exact :=
  match StringType.ValueFromTerraform t.stringType v with
  | Except.error err => Except.error err
  | Except.ok attrValue =>
    match attrValue with
    | AttrValue.string stringValue =>
      let res := ExactType.ValueFromString t stringValue
      if Diagnostics.hasError res.2 then
        Except.error "unexpected error converting StringValue to StringValuable"
      else
        Except.ok res.1
    | AttrValue.other desc => Except.error ("unexpected value type of " ++ desc)

/-- C1: for every string `s` that is syntactically valid JSON per RFC 7159,
`Validate` on a known, non-null wire value of string type wrapping `s`, at
any path, returns an empty diagnostics collection. -/
theorem validate_valid_json_no_diags (t : ExactType) (s : String) (p : AttrPath)
    (h : jsonValid s = true) :
    ExactType.Validate t ⟨some TFType.string, TFContent.str s⟩ p = [] := by
  simp [ExactType.Validate, TFType.isString, TFValue.isKnown, TFValue.isNull,
    TFValue.asString, h]

/-- C1 witness: `"[1,2]"` is valid JSON and validating a string wire value
wrapping it gives no diagnostics. -/
theorem validate_valid_json_no_diags_witness :
    jsonValid "[1,2]" = true ∧
      ExactType.Validate ⟨⟨⟩⟩ ⟨some TFType.string, TFContent.str "[1,2]"⟩ ⟨["attr"]⟩ = [] :=
  ⟨by decide, validate_valid_json_no_diags ⟨⟨⟩⟩ "[1,2]" ⟨["attr"]⟩ (by decide)⟩

/-- C2: for every string `s` that is not syntactically valid JSON,
`Validate` on a known, non-null wire value of string type wrapping `s`
returns exactly one diagnostic, of the "Invalid JSON String Value"
category, attributed to the given path, whose message contains `s`
verbatim. -/
theorem validate_invalid_json_one_diag (t : ExactType) (s : String) (p : AttrPath)
    (h : jsonValid s = false) :
    ExactType.Validate t ⟨some TFType.string, TFContent.str s⟩ p =
      [⟨Severity.error, p, "Invalid JSON String Value", invalidJSONHeader ++ s ++ "\n"⟩] := by
  simp [ExactType.Validate, TFType.isString, TFValue.isKnown, TFValue.isNull,
    TFValue.asString, Diagnostics.addAttributeError, h]

/-- C2 witness: `"nope"` is not valid JSON and validating a string wire
value wrapping it gives exactly the one invalid-JSON diagnostic quoting
it. -/
theorem validate_invalid_json_one_diag_witness :
    jsonValid "nope" = false ∧
      ExactType.Validate ⟨⟨⟩⟩ ⟨some TFType.string, TFContent.str "nope"⟩ ⟨["b"]⟩ =
        [⟨Severity.error, ⟨["b"]⟩, "Invalid JSON String Value",
          invalidJSONHeader ++ "nope" ++ "\n"⟩] :=
  ⟨by decide, validate_invalid_json_one_diag ⟨⟨⟩⟩ "nope" ⟨["b"]⟩ (by decide)⟩

/-- C3: `Validate` on a wire value that carries no type information, or
whose declared type is the string primitive and which is unknown or null,
returns an empty diagnostics collection regardless of any payload. -/
theorem validate_no_type_or_unknown_null_no_diags (t : ExactType) (v : TFValue) (p : AttrPath)
    (h : v.typ = none ∨
      (v.typ = some TFType.string ∧
        (v.content = TFContent.unknown ∨ v.content = TFContent.null))) :
    ExactType.Validate t v p = [] := by
  rcases v with ⟨typ, content⟩
  rcases h with h | ⟨h1, h2⟩
  · simp only at h
    subst h
    simp [ExactType.Validate]
  · simp only at h1
    subst h1
    rcases h2 with h2 | h2 <;>
      (simp only at h2
       subst h2
       simp [ExactType.Validate, TFType.isString, TFValue.isKnown, TFValue.isNull])

/-- C3 witness: a typeless wire value validates with no diagnostics even
with a concrete payload present. -/
theorem validate_no_type_or_unknown_null_no_diags_witness :
    ((⟨none, TFContent.str "zzz"⟩ : TFValue).typ = none ∨
      ((⟨none, TFContent.str "zzz"⟩ : TFValue).typ = some TFType.string ∧
        ((⟨none, TFContent.str "zzz"⟩ : TFValue).content = TFContent.unknown ∨
          (⟨none, TFContent.str "zzz"⟩ : TFValue).content = TFContent.null))) ∧
      ExactType.Validate ⟨⟨⟩⟩ ⟨none, TFContent.str "zzz"⟩ ⟨["c"]⟩ = [] :=
  ⟨Or.inl rfl,
    validate_no_type_or_unknown_null_no_diags ⟨⟨⟩⟩ ⟨none, TFContent.str "zzz"⟩ ⟨["c"]⟩
      (Or.inl rfl)⟩

/-- C4 counterexample: on a number-typed wire value, `Validate` does produce
exactly one diagnostic, but its category summary is
"JSON Exact Type Validation Error", not the literal "Validation Error" the
claim names. -/
theorem validate_wrong_type_category_counterexample :
    ¬ ∃ d : Diagnostic,
        ExactType.Validate ⟨⟨⟩⟩ ⟨some TFType.number, TFContent.nonString "5"⟩ ⟨["attr"]⟩ =
            [d] ∧
          d.summary = "Validation Error" := by
  rintro ⟨d, hd, hs⟩
  have hv : ExactType.Validate ⟨⟨⟩⟩ ⟨some TFType.number, TFContent.nonString "5"⟩ ⟨["attr"]⟩ =
      [⟨Severity.error, ⟨["attr"]⟩, "JSON Exact Type Validation Error",
        reportHeader ++ typeMismatchErr ⟨some TFType.number, TFContent.nonString "5"⟩⟩] :=
    rfl
  rw [hv] at hd
  injection hd with h1 _
  rw [← h1] at hs
  simp only [Diagnostic.summary] at hs
  exact absurd hs (by decide)

/-- C4 amended: for every wire value carrying type information whose
declared type is not the string primitive, `Validate` returns exactly one
diagnostic at the given path with the fixed category
"JSON Exact Type Validation Error" whose detail reports the rendering of
the unexpected value received. -/
theorem validate_wrong_type_one_diag (t : ExactType) (v : TFValue) (p : AttrPath) (ty : TFType)
    (h1 : v.typ = some ty) (h2 : TFType.isString ty = false) :
    ExactType.Validate t v p =
      [⟨Severity.error, p, "JSON Exact Type Validation Error",
        reportHeader ++ typeMismatchErr v⟩] := by
  rcases v with ⟨typ, content⟩
  simp only at h1
  subst h1
  simp [ExactType.Validate, h2, Diagnostics.addAttributeError]

/-- C4 amended witness: a number-typed wire value validates to exactly the
one framework-internal diagnostic. -/
theorem validate_wrong_type_one_diag_witness :
    (⟨some TFType.number, TFContent.nonString "5"⟩ : TFValue).typ = some TFType.number ∧
    TFType.isString TFType.number = false ∧
    ExactType.Validate ⟨⟨⟩⟩ ⟨some TFType.number, TFContent.nonString "5"⟩ ⟨["d"]⟩ =
      [⟨Severity.error, ⟨["d"]⟩, "JSON Exact Type Validation Error",
        reportHeader ++ typeMismatchErr ⟨some TFType.number, TFContent.nonString "5"⟩⟩] :=
  ⟨rfl, by decide,
    validate_wrong_type_one_diag ⟨⟨⟩⟩ ⟨some TFType.number, TFContent.nonString "5"⟩ ⟨["d"]⟩
      TFType.number rfl (by decide)⟩

/-- C5: `Equal` returns true iff the other type is the `ExactType` kind
with an equal wrapped generic string-type descriptor, returns false for
every value of any other type, and any two independently constructed
`ExactType` descriptors are equal. -/
theorem exactType_equal_spec :
    (∀ (t : ExactType) (o : AttrType),
        ExactType.Equal t o = true ↔
          ∃ st : StringType,
            o = AttrType.exactType st ∧ StringType.Equal t.stringType st = true) ∧
      (∀ t1 t2 : ExactType, ExactType.Equal t1 (AttrType.exactType t2.stringType) = true) := by
  constructor
  · intro t o
    cases o with
    | exactType inner =>
      constructor
      · intro _
        exact ⟨inner, rfl, rfl⟩
      · intro _
        rfl
    | stringBase inner => simp [ExactType.Equal]
    | otherType n => simp [ExactType.Equal]
  · intro t1 t2
    rfl

/-- C6: `ValueFromString` is total and performs no validation: for every
generic string value it succeeds with no diagnostics and wraps exactly that
value. -/
theorem valueFromString_total (t : ExactType) (sv : StringValue) :
    ExactType.ValueFromString t sv = (⟨sv⟩, ([] : Diagnostics)) :=
  rfl

/-- C7: whenever `ValueFromTerraform` succeeds on a wire value holding a
concrete string `s`, the returned value holder wraps exactly the string
`s`, with no transformation. -/
theorem valueFromTerraform_exact_roundtrip (t : ExactType) (v : TFValue) (s : String)
    (out : Exact) (h1 : v.content = TFContent.str s)
    (h2 : ExactType.ValueFromTerraform t v = Except.ok out) :
    out.stringValue = StringValue.known s := by
  rcases v with ⟨typ, content⟩
  simp only at h1
  subst h1
  simp [ExactType.ValueFromTerraform, StringType.ValueFromTerraform,
    ExactType.ValueFromString, Diagnostics.hasError] at h2
  rw [← h2]

/-- C7 witness: converting a wire value holding `"x"` succeeds with a value
holder wrapping exactly `"x"`. -/
theorem valueFromTerraform_exact_roundtrip_witness :
    (⟨some TFType.string, TFContent.str "x"⟩ : TFValue).content = TFContent.str "x" ∧
    ExactType.ValueFromTerraform ⟨⟨⟩⟩ ⟨some TFType.string, TFContent.str "x"⟩ =
      Except.ok ⟨StringValue.known "x"⟩ ∧
    (Exact.mk (StringValue.known "x")).stringValue = StringValue.known "x" :=
  ⟨rfl, rfl,
    valueFromTerraform_exact_roundtrip ⟨⟨⟩⟩ ⟨some TFType.string, TFContent.str "x"⟩ "x"
      ⟨StringValue.known "x"⟩ rfl rfl⟩

/-- C8: whenever the wire-to-value conversion of the generic string type
fails, `ValueFromTerraform` propagates that failure unchanged as a single
terminal error, returning no partial typed value. -/
theorem valueFromTerraform_propagates_error (t : ExactType) (v : TFValue) (e : String)
    (h : StringType.ValueFromTerraform t.stringType v = Except.error e) :
    ExactType.ValueFromTerraform t v = Except.error e := by
  simp only [ExactType.ValueFromTerraform]
  rw [h]

/-- C8 witness: a number-payload wire value makes the generic string
conversion fail, and `ValueFromTerraform` returns that same error. -/
theorem valueFromTerraform_propagates_error_witness :
    StringType.ValueFromTerraform (⟨⟨⟩⟩ : ExactType).stringType
        ⟨some TFType.number, TFContent.nonString "5"⟩ =
      Except.error "cannot unmarshal 5 into *string, expected string" ∧
    ExactType.ValueFromTerraform ⟨⟨⟩⟩ ⟨some TFType.number, TFContent.nonString "5"⟩ =
      Except.error "cannot unmarshal 5 into *string, expected string" :=
  ⟨rfl,
    valueFromTerraform_propagates_error ⟨⟨⟩⟩ ⟨some TFType.number, TFContent.nonString "5"⟩
      "cannot unmarshal 5 into *string, expected string" rfl⟩

/-- C9: for every input wire value and path, `Validate` returns either zero
diagnostics or exactly one diagnostic, never two or more. -/
theorem validate_at_most_one_diag (t : ExactType) (v : TFValue) (p : AttrPath) :
    (ExactType.Validate t v p).length ≤ 1 := by
  rcases v with ⟨typ, content⟩
  cases typ with
  | none => simp [ExactType.Validate]
  | some ty =>
    cases content <;>
      simp [ExactType.Validate, Diagnostics.addAttributeError, TFValue.isKnown,
        TFValue.isNull, TFValue.asString] <;>
      split_ifs <;>
      simp

/-- C10: `ValueFromTerraform` can fail only because the generic string
conversion failed (with that same error) or returned a value that is not a
generic string value; the diagnostics-error branch after `ValueFromString`
is unreachable. -/
theorem valueFromTerraform_error_source (t : ExactType) (v : TFValue) (e : String)
    (h : ExactType.ValueFromTerraform t v = Except.error e) :
    StringType.ValueFromTerraform t.stringType v = Except.error e ∨
      ∃ d : String,
        StringType.ValueFromTerraform t.stringType v = Except.ok (AttrValue.other d) := by
  simp only [ExactType.ValueFromTerraform] at h
  cases hsv : StringType.ValueFromTerraform t.stringType v with
  | error e2 =>
    left
    rw [hsv] at h
    simp only at h
    injection h with h2
    rw [h2]
  | ok av =>
    cases av with
    | string sv =>
      exfalso
      rw [hsv] at h
      simp [ExactType.ValueFromString, Diagnostics.hasError] at h
    | other d =>
      right
      exact ⟨d, rfl⟩

/-- C10 witness: on a failing wire value the error of `ValueFromTerraform`
comes from the generic string conversion. -/
theorem valueFromTerraform_error_source_witness :
    ExactType.ValueFromTerraform ⟨⟨⟩⟩ ⟨some TFType.number, TFContent.nonString "6"⟩ =
      Except.error "cannot unmarshal 6 into *string, expected string" ∧
    (StringType.ValueFromTerraform (⟨⟨⟩⟩ : ExactType).stringType
          ⟨some TFType.number, TFContent.nonString "6"⟩ =
        Except.error "cannot unmarshal 6 into *string, expected string" ∨
      ∃ d : String,
        StringType.ValueFromTerraform (⟨⟨⟩⟩ : ExactType).stringType
            ⟨some TFType.number, TFContent.nonString "6"⟩ =
          Except.ok (AttrValue.other d)) :=
  ⟨rfl,
    valueFromTerraform_error_source ⟨⟨⟩⟩ ⟨some TFType.number, TFContent.nonString "6"⟩
      "cannot unmarshal 6 into *string, expected string" rfl⟩

end Jsontypes
